import Mathlib

/-!
Verification development for the OCEL 2.0 → Celonis backend.

The Python source is shallowly embedded: strings are modelled as lists of
character codes (`Str := List Nat`), and the Python `str` operations used by
the code (`isalnum`, `isalpha`, `capitalize`, `split`, `join`, `replace`,
`rsplit`, `endswith`) are modelled on the ASCII fragment.  Pure functions of
the repository become Lean functions; the HTTP client's control flow is
embedded as functions over explicit response values.
-/

namespace Ocel

/-- Strings of the Python source, as lists of character codes. -/
abbrev Str := List Nat

/-- Character codes of a Lean string literal (ASCII text from the source). -/
def S (s : String) : Str := s.data.map Char.toNat

/-- ASCII model of Python `str.isdigit` for one character. -/
def isDigitCh (c : Nat) : Prop := 48 ≤ c ∧ c ≤ 57

/-- ASCII uppercase letter. -/
def isUpperCh (c : Nat) : Prop := 65 ≤ c ∧ c ≤ 90

/-- ASCII lowercase letter. -/
def isLowerCh (c : Nat) : Prop := 97 ≤ c ∧ c ≤ 122

/-- ASCII model of Python `str.isalpha` for one character. -/
def isAlphaCh (c : Nat) : Prop := isUpperCh c ∨ isLowerCh c

/-- ASCII model of Python `str.isalnum` for one character; this is also the
character class `[0-9a-zA-Z]` of the regex in `clean_name`. -/
def isAlnumCh (c : Nat) : Prop := isAlphaCh c ∨ isDigitCh c

instance (c : Nat) : Decidable (isDigitCh c) := by unfold isDigitCh; infer_instance

instance (c : Nat) : Decidable (isUpperCh c) := by unfold isUpperCh; infer_instance

instance (c : Nat) : Decidable (isLowerCh c) := by unfold isLowerCh; infer_instance

instance (c : Nat) : Decidable (isAlphaCh c) := by unfold isAlphaCh; infer_instance

instance (c : Nat) : Decidable (isAlnumCh c) := by unfold isAlnumCh; infer_instance

/-- ASCII model of the first-character action of Python `str.capitalize`. -/
def toUpperCh (c : Nat) : Nat := if isLowerCh c then c - 32 else c

/-- ASCII model of Python `str.lower` on one character. -/
def toLowerCh (c : Nat) : Nat := if isUpperCh c then c + 32 else c

/-- Worker for `dedupFirst`, carrying the set of values already seen. -/
def dedupFirstGo {α : Type} [DecidableEq α] (seen : List α) : List α → List α
  | [] => []
  | a :: l => if a ∈ seen then dedupFirstGo seen l else a :: dedupFirstGo (a :: seen) l

/-- First-occurrence de-duplication, modelling pandas `drop_duplicates` /
`nunique` and Python `set` construction (order normalised to first sight). -/
def dedupFirst {α : Type} [DecidableEq α] (l : List α) : List α := dedupFirstGo [] l

/-- Worker for `splitWords`: Python `str.split()` on a string whose characters
are alphanumerics and spaces (the only characters surviving the sanitizers'
filters), accumulating the current word in reverse. -/
def splitWordsGo : Str → Str → List Str
  | [], acc => if acc.isEmpty then [] else [acc.reverse]
  | c :: cs, acc =>
    if c = 32 then
      if acc.isEmpty then splitWordsGo cs [] else acc.reverse :: splitWordsGo cs []
    else
      splitWordsGo cs (c :: acc)

/-- Python `str.split()` (whitespace split discarding empty words); the inputs
it is applied to contain only alphanumerics and spaces. -/
def splitWords (s : Str) : List Str := splitWordsGo s []

/-- Python `str.capitalize()`: first character uppercased, rest lowercased. -/
def capitalizeWord : Str → Str
  | [] => []
  | c :: cs => toUpperCh c :: cs.map toLowerCh

/-- Python `sep.join(parts)`. -/
def joinSep (sep : Str) : List Str → Str
  | [] => []
  | [w] => w
  | w :: ws => w ++ sep ++ joinSep sep ws

/-- `clean_name` from `splitter.py`: strip characters outside `[0-9a-zA-Z ]`,
capitalize each whitespace-separated word, join with a space, then remove all
spaces. -/
def cleanName (name : Str) : Str :=
  (joinSep [32]
      ((splitWords (name.filter (fun c => decide (isAlnumCh c ∨ c = 32)))).map
        capitalizeWord)).filter
    (fun c => decide (c ≠ 32))

/-- `_sanitize_name` from `client.py`: same cleaning pipeline as `clean_name`,
then prepend the code of `A` (65) when the result is empty or does not start
with a letter. -/
def sanitizeName (raw : Str) : Str :=
  let allowed := raw.filter (fun c => decide (isAlnumCh c ∨ c = 32))
  let cleaned :=
    (joinSep [32] ((splitWords allowed).map capitalizeWord)).filter
      (fun c => decide (c ≠ 32))
  match cleaned with
  | [] => [65]
  | c :: cs => if isAlphaCh c then c :: cs else 65 :: c :: cs

example : cleanName (S "pick up item") = S "PickUpItem" := by decide
example : cleanName (S "a b") = S "AB" := by decide
example : cleanName (S "AB") = S "Ab" := by decide
example : sanitizeName (S "a b") = S "AB" := by decide
example : sanitizeName (S "AB") = S "Ab" := by decide
example : sanitizeName (S "item-id!") = S "Itemid" := by decide
example : sanitizeName (S "") = S "A" := by decide
example : sanitizeName (S "9x y") = S "A9xY" := by decide

/-! ## SQL Chunk Encoder (`dataframe_to_sql_chunks` in `splitter.py`) -/

/-- Cell value of a tabular dataset, as discriminated by the encoder:
`pd.isnull` → `null`; `pd.Timestamp` → `timestamp` (carrying the text already
produced by `strftime`, which is external formatting); `int`/`float` →
`num` (carrying the text of Python `str(value)`); anything else → `str`. -/
inductive Value : Type
  | null : Value
  | timestamp (s : Str) : Value
  | num (s : Str) : Value
  | str (s : Str) : Value
deriving DecidableEq

/-- Python `str(value).replace(chr(39), chr(39) * 2)`: double every single
quote (code 39). -/
def escapeQuotes (s : Str) : Str := s.flatMap (fun c => if c = 39 then [39, 39] else [c])

/-- SQL literal for one cell, per the `if` chain of the encoder; 39 is the
single-quote character. -/
def renderValue : Value → Str
  | .null => S "NULL"
  | .timestamp s => S "TIMESTAMP " ++ 39 :: s ++ [39]
  | .num s => s
  | .str s => 39 :: escapeQuotes s ++ [39]

/-- A tabular dataset: ordered column names and rows of cell values (one cell
per column). -/
structure Dataframe : Type where
  cols : List Str
  rows : List (List Value)
deriving DecidableEq

/-- One `SELECT … FROM (SELECT 1) AS dummy WHERE 1=1` block for one row;
34 is the double-quote character around column aliases. -/
def rowToSelect (cols : List Str) (cells : List Value) : Str :=
  let parts := (cols.zip cells).map (fun p => renderValue p.2 ++ S " AS " ++ 34 :: p.1 ++ [34])
  S "SELECT\n\t" ++ joinSep (S ",\n\t") parts ++ S "\nFROM (SELECT 1) AS dummy\nWHERE 1=1"

/-- Dynamic chunk size from the column count (the `if`/`elif` chain of
`dataframe_to_sql_chunks`). -/
def chunkSizeFor (maxParts : Nat) : Nat :=
  if maxParts ≤ 2 then 1000
  else if maxParts = 3 then 500
  else if maxParts = 4 then 250
  else if maxParts = 5 then 125
  else if maxParts = 6 then 60
  else if maxParts = 7 then 30
  else 20

/-- The list comprehension
`[lines[i : i + n] for i in range(0, len(lines), n)]`:
`range(0, L, n)` has `(L + n - 1) / n` elements `0, n, 2n, …`. -/
def chunkGroups {α : Type} (lines : List α) (n : Nat) : List (List α) :=
  (List.range' 0 ((lines.length + n - 1) / n) n).map (fun i => (lines.drop i).take n)

/-- The per-row `SELECT` blocks of a dataset, in row order. -/
def selectLines (df : Dataframe) : List Str := df.rows.map (rowToSelect df.cols)

/-- The chunk groups of a dataset: its `SELECT` blocks packed into groups of
at most `chunkSizeFor` (column count) blocks. -/
def sqlChunkGroups (df : Dataframe) : List (List Str) :=
  chunkGroups (selectLines df) (chunkSizeFor df.cols.length)

/-- Python `(chr(10) + chr(10) + "UNION ALL" + chr(10) + chr(10)).join`. -/
def joinUnionAll (g : List Str) : Str := joinSep (S "\n\nUNION ALL\n\n") g

/-- `dataframe_to_sql_chunks`: each chunk is the `UNION ALL`-join of one
group of `SELECT` blocks. -/
def dataframeToSqlChunks (df : Dataframe) : List Str :=
  (sqlChunkGroups df).map joinUnionAll

example :
    dataframeToSqlChunks ⟨[S "ID"], [[Value.str (S "x")]]⟩ =
      [S "SELECT\n\t" ++ [39, 120, 39] ++ S " AS " ++ [34, 73, 68, 34] ++
        S "\nFROM (SELECT 1) AS dummy\nWHERE 1=1"] := by decide

lemma chunkSizeFor_pos (n : Nat) : 0 < chunkSizeFor n := by
  unfold chunkSizeFor
  repeat' split
  all_goals omega

lemma chunkGroups_nil {α : Type} (n : Nat) : chunkGroups ([] : List α) n = [] := by
  unfold chunkGroups
  rcases n with _ | n
  · simp
  · rw [List.length_nil, Nat.div_eq_of_lt (by omega)]
    simp

lemma chunkGroups_cons {α : Type} (l : List α) (n : Nat) (hn : 0 < n) (hl : l ≠ []) :
    chunkGroups l n = l.take n :: chunkGroups (l.drop n) n := by
  have hL : 0 < l.length := List.length_pos.mpr hl
  have hK : (l.length + n - 1) / n = ((l.length - n) + n - 1) / n + 1 := by
    rcases le_or_lt l.length n with h | h
    · have e1 : (l.length + n - 1) / n = 1 := by
        have e : l.length + n - 1 = (l.length - 1) + n := by omega
        rw [e, Nat.add_div_right _ hn, Nat.div_eq_of_lt (by omega)]
      have e2 : ((l.length - n) + n - 1) / n = 0 := by
        have e : (l.length - n) + n - 1 = n - 1 := by omega
        rw [e]
        exact Nat.div_eq_of_lt (by omega)
      omega
    · have e1 : l.length + n - 1 = (l.length - 1) + n := by omega
      have e2 : (l.length - n) + n - 1 = l.length - 1 := by omega
      rw [e1, Nat.add_div_right _ hn, e2]
  unfold chunkGroups
  rw [List.length_drop, hK, List.range'_succ]
  simp only [List.map_cons, List.drop_zero, Nat.zero_add]
  refine congrArg₂ _ rfl ?_
  rw [show List.range' n ((l.length - n + n - 1) / n) n =
        (List.range' 0 ((l.length - n + n - 1) / n) n).map (n + ·) by
      rw [List.map_add_range', Nat.add_zero],
    List.map_map]
  refine List.map_congr_left ?_
  intro i _
  simp [Function.comp, List.drop_drop]

lemma chunkGroups_flatten {α : Type} (n : Nat) (hn : 0 < n) (l : List α) :
    (chunkGroups l n).flatten = l := by
  have H : ∀ (N : Nat) (l : List α), l.length ≤ N → (chunkGroups l n).flatten = l := by
    intro N
    induction N with
    | zero =>
      intro l hl
      have : l = [] := List.eq_nil_of_length_eq_zero (by omega)
      subst this
      rw [chunkGroups_nil]
      rfl
    | succ N ih =>
      intro l hl
      by_cases hnil : l = []
      · subst hnil
        rw [chunkGroups_nil]
        rfl
      · have hL : 0 < l.length := List.length_pos.mpr hnil
        rw [chunkGroups_cons l n hn hnil, List.flatten_cons,
          ih (l.drop n) (by rw [List.length_drop]; omega)]
        exact List.take_append_drop n l
  exact H l.length l le_rfl

lemma chunkGroups_mem_length {α : Type} {l : List α} {n : Nat} {g : List α}
    (hg : g ∈ chunkGroups l n) : g.length ≤ n := by
  unfold chunkGroups at hg
  rcases List.mem_map.mp hg with ⟨i, _, rfl⟩
  rw [List.length_take]
  exact Nat.min_le_left _ _

/-! ## Facts about the sanitizers -/

lemma alnum_ne_space {c : Nat} (h : isAlnumCh c) : c ≠ 32 := by
  unfold isAlnumCh isAlphaCh isUpperCh isLowerCh isDigitCh at h
  omega

lemma toUpperCh_alnum {c : Nat} (h : isAlnumCh c) : isAlnumCh (toUpperCh c) := by
  unfold toUpperCh isAlnumCh isAlphaCh isUpperCh isLowerCh isDigitCh at *
  split <;> omega

lemma toLowerCh_alnum {c : Nat} (h : isAlnumCh c) : isAlnumCh (toLowerCh c) := by
  unfold toLowerCh isAlnumCh isAlphaCh isUpperCh isLowerCh isDigitCh at *
  split <;> omega

lemma toUpperCh_ne_space {c : Nat} (h : isAlnumCh c) : toUpperCh c ≠ 32 :=
  alnum_ne_space (toUpperCh_alnum h)

lemma toLowerCh_ne_space {c : Nat} (h : isAlnumCh c) : toLowerCh c ≠ 32 :=
  alnum_ne_space (toLowerCh_alnum h)

lemma toUpperCh_alpha {c : Nat} (h : isAlphaCh c) : isAlphaCh (toUpperCh c) := by
  unfold toUpperCh isAlphaCh isUpperCh isLowerCh at *
  split <;> omega

lemma toUpperCh_idem (c : Nat) : toUpperCh (toUpperCh c) = toUpperCh c := by
  unfold toUpperCh isLowerCh
  by_cases h : 97 ≤ c ∧ c ≤ 122
  · rw [if_pos h, if_neg (by omega)]
  · rw [if_neg h, if_neg h]

lemma toLowerCh_idem (c : Nat) : toLowerCh (toLowerCh c) = toLowerCh c := by
  unfold toLowerCh isUpperCh
  by_cases h : 65 ≤ c ∧ c ≤ 90
  · rw [if_pos h, if_neg (by omega)]
  · rw [if_neg h, if_neg h]

lemma mem_splitWordsGo {c : Nat} :
    ∀ (s acc w : Str), w ∈ splitWordsGo s acc → c ∈ w → c ∈ s ∨ c ∈ acc := by
  intro s
  induction s with
  | nil =>
    intro acc w hw hc
    unfold splitWordsGo at hw
    split at hw
    · simp at hw
    · rw [List.mem_singleton] at hw
      subst hw
      exact Or.inr (List.mem_reverse.mp hc)
  | cons a as ih =>
    intro acc w hw hc
    unfold splitWordsGo at hw
    split at hw
    · split at hw
      · rcases ih [] w hw hc with h | h
        · exact Or.inl (List.mem_cons_of_mem a h)
        · simp at h
      · rcases List.mem_cons.mp hw with h | h
        · subst h
          exact Or.inr (List.mem_reverse.mp hc)
        · rcases ih [] w h hc with h2 | h2
          · exact Or.inl (List.mem_cons_of_mem a h2)
          · simp at h2
    · rcases ih (a :: acc) w hw hc with h | h
      · exact Or.inl (List.mem_cons_of_mem a h)
      · rcases List.mem_cons.mp h with h2 | h2
        · exact Or.inl (h2 ▸ List.mem_cons_self a as)
        · exact Or.inr h2


lemma mem_capitalizeWord {c : Nat} {w : Str} (h : c ∈ capitalizeWord w) :
    ∃ d ∈ w, c = toUpperCh d ∨ c = toLowerCh d := by
  cases w with
  | nil => simp [capitalizeWord] at h
  | cons d ds =>
    unfold capitalizeWord at h
    rcases List.mem_cons.mp h with h | h
    · exact ⟨d, List.mem_cons_self d ds, Or.inl h⟩
    · rcases List.mem_map.mp h with ⟨e, he, rfl⟩
      exact ⟨e, List.mem_cons_of_mem d he, Or.inr rfl⟩

lemma mem_joinSep {c : Nat} {sep : Str} :
    ∀ {ws : List Str}, c ∈ joinSep sep ws → c ∈ sep ∨ ∃ w ∈ ws, c ∈ w := by
  intro ws
  induction ws with
  | nil => intro h; simp [joinSep] at h
  | cons w ws ih =>
    intro h
    cases ws with
    | nil =>
      exact Or.inr ⟨w, List.mem_cons_self w [], h⟩
    | cons w2 ws2 =>
      rw [show joinSep sep (w :: w2 :: ws2) = w ++ sep ++ joinSep sep (w2 :: ws2) from rfl,
        List.mem_append, List.mem_append] at h
      rcases h with (h | h) | h
      · exact Or.inr ⟨w, List.mem_cons_self w _, h⟩
      · exact Or.inl h
      · rcases ih h with h2 | ⟨w3, hw3, hc3⟩
        · exact Or.inl h2
        · exact Or.inr ⟨w3, List.mem_cons_of_mem w hw3, hc3⟩

lemma mem_cleanName_alnum {x : Str} : ∀ c ∈ cleanName x, isAlnumCh c := by
  intro c hc
  unfold cleanName at hc
  rw [List.mem_filter] at hc
  obtain ⟨hj, hne⟩ := hc
  have hcns : c ≠ 32 := of_decide_eq_true hne
  rcases mem_joinSep hj with hsep | ⟨w1, hw1, hcw1⟩
  · rw [List.mem_singleton] at hsep
    exact absurd hsep hcns
  · rcases List.mem_map.mp hw1 with ⟨w, hw, rfl⟩
    rcases mem_capitalizeWord hcw1 with ⟨d, hd, hor⟩
    have hds : d ∈ x.filter (fun c => decide (isAlnumCh c ∨ c = 32)) := by
      rcases mem_splitWordsGo _ [] w hw hd with h | h
      · exact h
      · simp at h
    rw [List.mem_filter] at hds
    rcases of_decide_eq_true hds.2 with hda | hds32
    · rcases hor with rfl | rfl
      · exact toUpperCh_alnum hda
      · exact toLowerCh_alnum hda
    · subst hds32
      rcases hor with rfl | rfl
      · exact absurd (by decide : toUpperCh 32 = 32) hcns
      · exact absurd (by decide : toLowerCh 32 = 32) hcns

lemma splitWordsGo_nonspace :
    ∀ (s acc : Str), (∀ c ∈ s, c ≠ 32) →
      splitWordsGo s acc = if acc = [] ∧ s = [] then [] else [acc.reverse ++ s] := by
  intro s
  induction s with
  | nil =>
    intro acc _
    unfold splitWordsGo
    cases acc with
    | nil => simp
    | cons a as => simp
  | cons a as ih =>
    intro acc h
    have ha : a ≠ 32 := h a (List.mem_cons_self a as)
    unfold splitWordsGo
    rw [if_neg ha, ih (a :: acc) (fun c hc => h c (List.mem_cons_of_mem a hc))]
    have hne : ¬(a :: acc = [] ∧ as = []) := by simp
    rw [if_neg hne]
    have hne2 : ¬(acc = [] ∧ a :: as = []) := by simp
    rw [if_neg hne2]
    simp

lemma splitWords_single {y : Str} (hne : y ≠ []) (hns : ∀ c ∈ y, c ≠ 32) :
    splitWords y = [y] := by
  unfold splitWords
  rw [splitWordsGo_nonspace y [] hns]
  simp [hne]

lemma capitalizeWord_idem (w : Str) : capitalizeWord (capitalizeWord w) = capitalizeWord w := by
  cases w with
  | nil => rfl
  | cons c cs =>
    simp only [capitalizeWord, List.map_map]
    refine congrArg₂ _ (toUpperCh_idem c) ?_
    exact List.map_congr_left (fun d _ => by simp [Function.comp, toLowerCh_idem])

lemma capitalizeWord_ne_nil {y : Str} (h : y ≠ []) : capitalizeWord y ≠ [] := by
  cases y with
  | nil => exact absurd rfl h
  | cons c cs => simp [capitalizeWord]

lemma capitalizeWord_alnum {y : Str} (hal : ∀ c ∈ y, isAlnumCh c) :
    ∀ c ∈ capitalizeWord y, isAlnumCh c := by
  intro c hc
  rcases mem_capitalizeWord hc with ⟨d, hd, rfl | rfl⟩
  · exact toUpperCh_alnum (hal d hd)
  · exact toLowerCh_alnum (hal d hd)

lemma cleanName_of_alnum {y : Str} (hne : y ≠ []) (hal : ∀ c ∈ y, isAlnumCh c) :
    cleanName y = capitalizeWord y := by
  unfold cleanName
  have hfilter : y.filter (fun c => decide (isAlnumCh c ∨ c = 32)) = y :=
    List.filter_eq_self.mpr (fun c hc => by simp [hal c hc])
  rw [hfilter, splitWords_single hne (fun c hc => alnum_ne_space (hal c hc))]
  rw [show (List.map capitalizeWord [y]) = [capitalizeWord y] from rfl]
  rw [show joinSep [32] [capitalizeWord y] = capitalizeWord y from rfl]
  apply List.filter_eq_self.mpr
  intro c hc
  rcases mem_capitalizeWord hc with ⟨d, hd, rfl | rfl⟩
  · simp [toUpperCh_ne_space (hal d hd)]
  · simp [toLowerCh_ne_space (hal d hd)]

lemma sanitizeName_eq (raw : Str) :
    sanitizeName raw =
      match cleanName raw with
      | [] => [65]
      | c :: cs => if isAlphaCh c then c :: cs else 65 :: c :: cs := rfl

lemma sanitizeName_eq_nil {raw : Str} (h : cleanName raw = []) : sanitizeName raw = [65] := by
  rw [sanitizeName_eq, h]

lemma sanitizeName_eq_cons {raw : Str} {c : Nat} {cs : Str} (h : cleanName raw = c :: cs) :
    sanitizeName raw = if isAlphaCh c then c :: cs else 65 :: c :: cs := by
  rw [sanitizeName_eq, h]

lemma sanitizeName_ne_nil (raw : Str) : sanitizeName raw ≠ [] := by
  cases hy : cleanName raw with
  | nil => rw [sanitizeName_eq_nil hy]; simp
  | cons c cs =>
    rw [sanitizeName_eq_cons hy]
    by_cases h : isAlphaCh c <;> simp [h]

lemma sanitizeName_alnum (raw : Str) : ∀ c ∈ sanitizeName raw, isAlnumCh c := by
  intro c hc
  have h65 : isAlnumCh 65 := by decide
  cases hy : cleanName raw with
  | nil =>
    rw [sanitizeName_eq_nil hy, List.mem_singleton] at hc
    subst hc
    exact h65
  | cons d ds =>
    rw [sanitizeName_eq_cons hy] at hc
    by_cases h : isAlphaCh d
    · rw [if_pos h] at hc
      exact mem_cleanName_alnum (x := raw) c (hy ▸ hc)
    · rw [if_neg h] at hc
      rcases List.mem_cons.mp hc with rfl | hc2
      · exact h65
      · exact mem_cleanName_alnum (x := raw) c (hy ▸ hc2)

lemma sanitizeName_head_alpha (raw : Str) :
    ∀ c cs, sanitizeName raw = c :: cs → isAlphaCh c := by
  intro c cs h
  cases hy : cleanName raw with
  | nil =>
    rw [sanitizeName_eq_nil hy] at h
    cases h
    decide
  | cons d ds =>
    rw [sanitizeName_eq_cons hy] at h
    by_cases hd : isAlphaCh d
    · rw [if_pos hd] at h
      cases h
      exact hd
    · rw [if_neg hd] at h
      cases h
      decide

lemma sanitizeName_of_sanitized {y : Str} (hne : y ≠ []) (hal : ∀ c ∈ y, isAlnumCh c)
    (hhead : ∀ c cs, y = c :: cs → isAlphaCh c) :
    sanitizeName y = capitalizeWord y := by
  cases y with
  | nil => exact absurd rfl hne
  | cons c cs =>
    have hcc : cleanName (c :: cs) = toUpperCh c :: cs.map toLowerCh :=
      cleanName_of_alnum hne hal
    rw [sanitizeName_eq_cons hcc, if_pos (toUpperCh_alpha (hhead c cs rfl))]
    rfl

lemma sanitizeName_double_eq (x : Str) :
    sanitizeName (sanitizeName x) = capitalizeWord (sanitizeName x) :=
  sanitizeName_of_sanitized (sanitizeName_ne_nil x) (sanitizeName_alnum x)
    (sanitizeName_head_alpha x)

lemma sanitizeName_stable (x : Str) :
    sanitizeName (sanitizeName (sanitizeName x)) = sanitizeName (sanitizeName x) := by
  rw [sanitizeName_double_eq x]
  have hne : capitalizeWord (sanitizeName x) ≠ [] := capitalizeWord_ne_nil (sanitizeName_ne_nil x)
  have hal : ∀ c ∈ capitalizeWord (sanitizeName x), isAlnumCh c :=
    capitalizeWord_alnum (sanitizeName_alnum x)
  have hhead : ∀ c cs, capitalizeWord (sanitizeName x) = c :: cs → isAlphaCh c := by
    intro c cs h
    cases hy2 : sanitizeName x with
    | nil => exact absurd hy2 (sanitizeName_ne_nil x)
    | cons d ds =>
      rw [hy2] at h
      cases h
      exact toUpperCh_alpha (sanitizeName_head_alpha x d ds hy2)
  rw [sanitizeName_of_sanitized hne hal hhead, capitalizeWord_idem]

lemma cleanName_stable (x : Str) :
    cleanName (cleanName (cleanName x)) = cleanName (cleanName x) := by
  cases hy : cleanName x with
  | nil => rfl
  | cons c cs =>
    have hne : (c :: cs : Str) ≠ [] := by simp
    have hal : ∀ d ∈ (c :: cs : Str), isAlnumCh d := fun d hd =>
      mem_cleanName_alnum (x := x) d (hy ▸ hd)
    rw [cleanName_of_alnum hne hal]
    rw [cleanName_of_alnum (capitalizeWord_ne_nil hne) (capitalizeWord_alnum hal),
      capitalizeWord_idem]

/-! ## Relationship keys (`split` in `splitter.py`,
`_create_event_object_relationships` in `client.py`) -/

/-- Character codes of the text `_relations` (95 is the underscore). -/
def relationsSuffix : Str := S "_relations"

/-- The key `"{evt_name}_{obj_name}_relations"` built by `split`. -/
def relKey (evtName objName : Str) : Str := evtName ++ 95 :: objName ++ relationsSuffix

/-- Python `str.endswith`. -/
def endsWithStr (s suf : Str) : Bool := decide (s.drop (s.length - suf.length) = suf)

/-- Python `s.rsplit(sep, 1)` restricted to its use in the key parser:
`some (before, after)` split at the last occurrence of `sep`, `none` when
`sep` does not occur (the parser's `len(parts) != 2` error branch). -/
def rsplitOnce (sep : Nat) : Str → Option (Str × Str)
  | [] => none
  | c :: cs =>
    match rsplitOnce sep cs with
    | some p => some (c :: p.1, p.2)
    | none => if c = sep then some ([], cs) else none

/-- Key parse in `_create_event_object_relationships`: require the
`"_relations"` suffix, strip the last 10 characters, split at the last
underscore; `none` models the logged-and-skipped error branches. -/
def parseRelationshipKey (k : Str) : Option (Str × Str) :=
  if endsWithStr k relationsSuffix then rsplitOnce 95 (k.take (k.length - 10))
  else none

lemma rsplitOnce_of_not_mem {sep : Nat} : ∀ {s : Str}, sep ∉ s → rsplitOnce sep s = none := by
  intro s
  induction s with
  | nil => intro _; rfl
  | cons c cs ih =>
    intro h
    unfold rsplitOnce
    rw [ih (fun hm => h (List.mem_cons_of_mem c hm))]
    rw [if_neg (fun hc => h (by rw [← hc]; exact List.mem_cons_self c cs))]

lemma rsplitOnce_append {sep : Nat} (E O : Str) (h : sep ∉ O) :
    rsplitOnce sep (E ++ sep :: O) = some (E, O) := by
  induction E with
  | nil =>
    rw [List.nil_append]
    unfold rsplitOnce
    rw [rsplitOnce_of_not_mem h, if_pos rfl]
  | cons c cs ih =>
    rw [List.cons_append]
    unfold rsplitOnce
    rw [ih]

lemma cleanName_no_underscore (o : Str) : 95 ∉ cleanName o := fun h =>
  absurd (mem_cleanName_alnum 95 h) (by decide)

lemma parse_relKey {E O : Str} (hO : 95 ∉ O) :
    parseRelationshipKey (relKey E O) = some (E, O) := by
  have hk : relKey E O = (E ++ 95 :: O) ++ relationsSuffix := by
    simp [relKey]
  have hlen : (relKey E O).length - 10 = (E ++ 95 :: O).length := by
    rw [hk, List.length_append]
    rw [show relationsSuffix.length = 10 from rfl]
    omega
  have hends : endsWithStr (relKey E O) relationsSuffix = true := by
    unfold endsWithStr
    rw [show (relKey E O).length - relationsSuffix.length = (relKey E O).length - 10 from rfl,
      hlen, hk, List.drop_left]
    simp
  unfold parseRelationshipKey
  rw [hends]
  rw [if_pos rfl]
  rw [hlen, hk, List.take_left]
  exact rsplitOnce_append E O hO

/-! ## Flattener relationship processing (`transform_ocel` in `splitter.py`,
lines 88–136, as invoked by `split` with `custom=True`) -/

/-- One row of `ocel.relations`: one event–object link, with the event's
activity and the object's type. -/
structure Rel : Type where
  eid : Str
  act : Str
  oid : Str
  otyp : Str
deriving DecidableEq

/-- `relations_df[(relations_df["ocel:activity"] == evt_type) &
(relations_df["ocel:type"] == obj_type)]`. -/
def pairSub (rels : List Rel) (et ot : Str) : List Rel :=
  rels.filter (fun r => decide (r.act = et ∧ r.otyp = ot))

/-- `relations_df[["ocel:activity", "ocel:type"]].drop_duplicates()`. -/
def pairsOf (rels : List Rel) : List (Str × Str) :=
  dedupFirst (rels.map (fun r => (r.act, r.otyp)))

/-- `rel_df.groupby("ocel:eid")["ocel:oid"].nunique().eq(1).all()`:
`true` is the ONE_TO_ONE classification, `false` is ONE_TO_MANY. -/
def classifyPair (sub : List Rel) : Bool :=
  (dedupFirst (sub.map Rel.eid)).all
    (fun e => (dedupFirst ((sub.filter (fun r => decide (r.eid = e))).map Rel.oid)).length == 1)

/-- One event row: its `ID` cell and its remaining cells. -/
structure EvtRow : Type where
  id : Str
  cells : List Value
deriving DecidableEq

/-- An event dataset under construction: column names and rows. -/
structure EventDf : Type where
  cols : List Str
  rows : List EvtRow
deriving DecidableEq

/-- `evt_df["ID"].map(eid_to_oid)` at one event id, where `eid_to_oid` is
`rel_df.set_index("ocel:eid")["ocel:oid"]`: the linked object id, or NaN
(null) when the event has no link in `rel_df`. -/
def lookupOid (sub : List Rel) (eid : Str) : Value :=
  match sub.find? (fun r => decide (r.eid = eid)) with
  | some r => .str r.oid
  | none => .null

/-- `evt_df[obj_name] = evt_df["ID"].map(eid_to_oid)`: append the inline
object column. -/
def addInlineColumn (df : EventDf) (colName : Str) (sub : List Rel) : EventDf :=
  ⟨df.cols ++ [colName],
    df.rows.map (fun row => ⟨row.id, row.cells ++ [lookupOid sub row.id]⟩)⟩

/-- `rel_df[["ocel:oid", "ocel:eid"]]` renamed with
`{"ocel:eid": "ID", "ocel:oid": obj_name}` (the `custom=True` branch used by
`split`): the object-id column comes first, the event-id column `ID` second;
one row per link. -/
def mkJunctionDf (objName : Str) (sub : List Rel) : Dataframe :=
  ⟨[objName, S "ID"], sub.map (fun r => [Value.str r.oid, Value.str r.eid])⟩

/-- Mutable state of the relationship loop: the event dataframes (keyed by
cleaned event type name) and the junction dataframes (keyed by the cleaned
name pair). -/
structure TState : Type where
  eventDfs : List (Str × EventDf)
  junctions : List ((Str × Str) × Dataframe)
deriving DecidableEq

/-- Dictionary read `event_dataframes[evt_name]`. -/
def lookupA : List (Str × EventDf) → Str → Option EventDf
  | [], _ => none
  | (k, v) :: rest, key => if k = key then some v else lookupA rest key

/-- Dictionary write `event_dataframes[evt_name] = evt_df`. -/
def updateAssoc (m : List (Str × EventDf)) (key : Str) (f : EventDf → EventDf) :
    List (Str × EventDf) :=
  m.map (fun kv => if kv.1 = key then (kv.1, f kv.2) else kv)

/-- Body of the loop over `(event type, object type)` pairs:
ONE_TO_ONE folds `eid_to_oid` into the event dataset as an inline column,
ONE_TO_MANY appends a junction dataframe under the cleaned name pair. -/
def processPair (rels : List Rel) (st : TState) (p : Str × Str) : TState :=
  let sub := pairSub rels p.1 p.2
  let en := cleanName p.1
  let obn := cleanName p.2
  if classifyPair sub then
    ⟨updateAssoc st.eventDfs en (fun df => addInlineColumn df obn sub), st.junctions⟩
  else
    ⟨st.eventDfs, st.junctions ++ [((en, obn), mkJunctionDf obn sub)]⟩

/-- The relationship loop of `transform_ocel` over all distinct pairs. -/
def transformRelationships (rels : List Rel) (st : TState) : TState :=
  (pairsOf rels).foldl (processPair rels) st

/-- `split`: each junction dataframe's SQL chunks are published under the key
`f"{evt_name}_{obj_name}_relations"`. -/
def relationshipsSqlOf (junctions : List ((Str × Str) × Dataframe)) :
    List (Str × List Str) :=
  junctions.map (fun j => (relKey j.1.1 j.1.2, dataframeToSqlChunks j.2))

lemma lookupA_updateAssoc (m : List (Str × EventDf)) (key : Str) (f : EventDf → EventDf) :
    lookupA (updateAssoc m key f) key = (lookupA m key).map f := by
  induction m with
  | nil => rfl
  | cons kv rest ih =>
    obtain ⟨k, v⟩ := kv
    rw [show updateAssoc ((k, v) :: rest) key f =
        (if k = key then (k, f v) else (k, v)) :: updateAssoc rest key f from rfl]
    by_cases h : k = key
    · rw [if_pos h]
      rw [show lookupA ((k, f v) :: updateAssoc rest key f) key =
          (if k = key then some (f v) else lookupA (updateAssoc rest key f) key) from rfl,
        if_pos h]
      rw [show lookupA ((k, v) :: rest) key =
          (if k = key then some v else lookupA rest key) from rfl, if_pos h]
      rfl
    · rw [if_neg h]
      rw [show lookupA ((k, v) :: updateAssoc rest key f) key =
          (if k = key then some v else lookupA (updateAssoc rest key f) key) from rfl,
        if_neg h]
      rw [show lookupA ((k, v) :: rest) key =
          (if k = key then some v else lookupA rest key) from rfl, if_neg h]
      exact ih

/-! ## Type Provisioner (`_create_types` in `client.py`) -/

/-- Semantic attribute types, the domain of the fixed `TYPE_MAP` table. -/
inductive SemType : Type
  | string
  | integer
  | datetime
  | float
  | boolean
deriving DecidableEq

/-- `TYPE_MAP`. -/
def typeMap : SemType → Str
  | .string => S "CT_UTF8_STRING"
  | .integer => S "CT_LONG"
  | .datetime => S "CT_INSTANT"
  | .float => S "CT_DOUBLE"
  | .boolean => S "CT_BOOLEAN"

/-- One attribute of a type definition item. -/
structure AttrDef : Type where
  name : Str
  ty : SemType
deriving DecidableEq

/-- One object/event type definition item (`it` in the `_create_types` loop). -/
structure TypeItem : Type where
  name : Str
  attributes : List AttrDef
deriving DecidableEq

/-- One schema field of the payload (the namespace is the constant `custom`). -/
structure FieldDef : Type where
  name : Str
  dataType : Str
deriving DecidableEq

/-- Payload field list of `_create_types`: attributes mapped through
`TYPE_MAP`; `ID`/`Time` fields kept unsanitized and moved after the
sanitized other fields; then exactly one `ID` (string) and, for event types,
one `Time` (datetime) ensured. -/
def buildFields (it : TypeItem) (requireTime : Bool) : List FieldDef :=
  let fields := it.attributes.map (fun a => FieldDef.mk a.name (typeMap a.ty))
  let idTime := fields.filter (fun f => decide (f.name = S "ID" ∨ f.name = S "Time"))
  let other := fields.filter (fun f => !decide (f.name = S "ID" ∨ f.name = S "Time"))
  let sanitized := other.map (fun f => FieldDef.mk (sanitizeName f.name) f.dataType)
  let fields2 := sanitized ++ idTime
  let fields3 :=
    if fields2.any (fun f => decide (f.name = S "ID")) then fields2
    else fields2 ++ [FieldDef.mk (S "ID") (S "CT_UTF8_STRING")]
  if requireTime && !(fields3.any (fun f => decide (f.name = S "Time"))) then
    fields3 ++ [FieldDef.mk (S "Time") (S "CT_INSTANT")]
  else fields3

/-- The observable part of a create-type HTTP response: its status code and
the `errors[0].errorCode` field of its JSON body (`none` when absent). -/
structure Resp : Type where
  status : Nat
  errorCode : Option Str
deriving DecidableEq

/-- httpx `response.is_success` (2xx); its negation makes
`raise_for_status` raise `HTTPStatusError`. -/
def isSuccessStatus (s : Nat) : Prop := 200 ≤ s ∧ s < 300

instance (s : Nat) : Decidable (isSuccessStatus s) := by
  unfold isSuccessStatus
  infer_instance

/-- The error code recognised by the already-exists branch. -/
def alreadyExistsStr : Str := S "ALREADY_EXISTS"

/-- Outcome of one type's create request. -/
inductive CreateOutcome : Type
  | created
  | alreadyExists
  | fatal
deriving DecidableEq

/-- Log entry for one issued create request. -/
structure CreateLog : Type where
  name : Str
  fields : List FieldDef
  outcome : CreateOutcome
deriving DecidableEq

/-- The branch taken for one response: 2xx → created; status 400 with body
error code `ALREADY_EXISTS` → warned and skipped; anything else →
`raise e`. -/
def outcomeOf (r : Resp) : CreateOutcome :=
  if isSuccessStatus r.status then .created
  else if r.status = 400 ∧ r.errorCode = some alreadyExistsStr then .alreadyExists
  else .fatal

/-- `_create_types`: the sequential `for it in items` loop, with each item
paired with its response.  Returns the issued requests (sanitized name,
payload fields, outcome) and whether the loop ended by re-raising; the
re-raise aborts the loop, so items after a fatal response are never
issued. -/
def createTypes (requireTime : Bool) : List (TypeItem × Resp) → List CreateLog × Bool
  | [] => ([], false)
  | (it, r) :: rest =>
    let nm := sanitizeName it.name
    let fs := buildFields it requireTime
    match outcomeOf r with
    | .fatal => ([CreateLog.mk nm fs .fatal], true)
    | oc =>
      let next := createTypes requireTime rest
      (CreateLog.mk nm fs oc :: next.1, next.2)

/-- The log entry `createTypes` produces for one item. -/
def entryOf (requireTime : Bool) (x : TypeItem × Resp) : CreateLog :=
  CreateLog.mk (sanitizeName x.1.name) (buildFields x.1 requireTime) (outcomeOf x.2)

lemma createTypes_cons (rt : Bool) (it : TypeItem) (r : Resp) (rest : List (TypeItem × Resp)) :
    createTypes rt ((it, r) :: rest) =
      if outcomeOf r = .fatal then ([entryOf rt (it, r)], true)
      else (entryOf rt (it, r) :: (createTypes rt rest).1, (createTypes rt rest).2) := by
  cases h : outcomeOf r <;> simp [createTypes, h, entryOf]

lemma createTypes_append_nonFatal (rt : Bool) (pre rest : List (TypeItem × Resp))
    (hpre : ∀ x ∈ pre, outcomeOf x.2 ≠ .fatal) :
    createTypes rt (pre ++ rest) =
      (pre.map (entryOf rt) ++ (createTypes rt rest).1, (createTypes rt rest).2) := by
  induction pre with
  | nil => simp
  | cons x pre ih =>
    obtain ⟨it, r⟩ := x
    rw [List.cons_append, createTypes_cons,
      if_neg (hpre (it, r) (List.mem_cons_self _ _)),
      ih (fun y hy => hpre y (List.mem_cons_of_mem _ hy))]
    simp

/-! ## Transformation Orchestrator chunk processing
(`_process_single_sql_chunk` and `_create_factory_transformation` in
`client.py`) -/

/-- Parsed JSON body of a failed factory-update response. -/
structure UpdateBody : Type where
  statusCode : Option Nat
  message : Option Str
deriving DecidableEq

/-- Result of one HTTP attempt: a response with its status and, when the
body parses as JSON, the parsed body; or a transport-level failure
(httpx `RequestError`, not caught by the chunk handler). -/
inductive HttpOutcome : Type
  | resp (status : Nat) (body : Option UpdateBody)
  | transportError
deriving DecidableEq

/-- The two remote calls one chunk performs. -/
structure ChunkHttp : Type where
  createResp : HttpOutcome
  updateResp : HttpOutcome
deriving DecidableEq

/-- Result of `_process_single_sql_chunk` for one chunk: normal return,
logged-and-abandoned return, or a propagated exception. -/
inductive ChunkResult : Type
  | success
  | abandoned (msg : Str)
  | failed
deriving DecidableEq

/-- Default message of the abandoned branch. -/
def unknownUpdateError : Str := S "Unknown update error"

/-- `_process_single_sql_chunk`: create the factory (`raise_for_status`),
then update it (`raise_for_status`).  An `HTTPStatusError` is re-raised
(`failed`) unless the update response exists with status 400 and a JSON body
whose `statusCode` field is 400; that case is logged and the function
returns (`abandoned`). -/
def processSingleSqlChunk (io : ChunkHttp) : ChunkResult :=
  match io.createResp with
  | .transportError => .failed
  | .resp cs _ =>
    if isSuccessStatus cs then
      match io.updateResp with
      | .transportError => .failed
      | .resp us body =>
        if isSuccessStatus us then .success
        else if us = 400 then
          match body with
          | some b =>
            if b.statusCode = some 400 then .abandoned (b.message.getD unknownUpdateError)
            else .failed
          | none => .failed
        else .failed
    else .failed

/-- `asyncio.gather(*chunk_tasks, return_exceptions=True)` in
`_create_factory_transformation`: every chunk task runs to its own result;
exceptions are collected, not propagated across siblings. -/
def processChunks (chunks : List ChunkHttp) : List ChunkResult :=
  chunks.map processSingleSqlChunk

/-- Fan-in failure collection: the 1-based indices of failed chunks. -/
def failedChunks (results : List ChunkResult) : List Nat :=
  ((results.enumFrom 1).filter (fun p => decide (p.2 = ChunkResult.failed))).map Prod.fst

/-! ## Loader (`read_ocel_from_json` in `utils.py`) and the run pipeline
(`handle_download_and_create_types` in `router.py`) -/

/-- One raw event of the document. -/
structure EventJson : Type where
  id : Str
  ty : Str
  time : Str
  attributes : List (Str × Str)
  relationships : List (Str × Str)
deriving DecidableEq

/-- One raw object of the document (attributes carry a per-attribute time). -/
structure ObjectJson : Type where
  id : Str
  ty : Str
  attributes : List (Str × Str × Str)
  relationships : List (Str × Str)
deriving DecidableEq

/-- Raw OCEL 2 document: the two top-level arrays, `none` when the key is
absent (in which case `json_obj["events"]` / `json_obj["objects"]` raises
`KeyError`). -/
structure RawOcelDoc : Type where
  events : Option (List EventJson)
  objects : Option (List ObjectJson)
deriving DecidableEq

/-- The `KeyError` raised by a missing top-level array. -/
inductive ReadErr : Type
  | missingEvents
  | missingObjects
deriving DecidableEq

/-- Legacy event dict built for one event. -/
structure LegacyEvent : Type where
  activity : Str
  timestamp : Str
  vmap : List (Str × Str)
  typedOmap : List (Str × Str)
  omap : List Str
deriving DecidableEq

/-- One `ocel:objectChanges` record. -/
structure ObjectChange : Type where
  oid : Str
  ty : Str
  field : Str
  value : Str
  time : Str
deriving DecidableEq

/-- Legacy object dict built for one object. -/
structure LegacyObjectEntry : Type where
  ty : Str
  ovmap : List (Str × Str)
  o2o : List (Str × Str)
deriving DecidableEq

/-- The legacy structure handed to the external pm4py importer. -/
structure LegacyObj : Type where
  events : List (Str × LegacyEvent)
  objects : List (Str × LegacyObjectEntry)
  objectChanges : List ObjectChange
deriving DecidableEq

/-- Legacy dict for one event; `omap` is `list(set(...))` over the linked
object ids (modelled as first-occurrence de-duplication). -/
def legacyEventOf (e : EventJson) : Str × LegacyEvent :=
  (e.id, ⟨e.ty, e.time, e.attributes, e.relationships,
    dedupFirst (e.relationships.map Prod.fst)⟩)

/-- Legacy dict for one object: the first value of an attribute name wins,
later values for the same name become `ocel:objectChanges` records. -/
def legacyObjectOf (o : ObjectJson) : (Str × LegacyObjectEntry) × List ObjectChange :=
  let acc := o.attributes.foldl
    (fun (acc : List (Str × Str) × List ObjectChange) a =>
      if acc.1.any (fun kv => decide (kv.1 = a.1)) then
        (acc.1, acc.2 ++ [ObjectChange.mk o.id o.ty a.1 a.2.1 a.2.2])
      else (acc.1 ++ [(a.1, a.2.1)], acc.2))
    ([], [])
  ((o.id, ⟨o.ty, acc.1, o.relationships⟩), acc.2)

/-- `read_ocel_from_json` up to the hand-off to the external pm4py importer
(`classic.get_base_ocel`, `ocel_consistency.apply` and
`propagate_relations_filtering` are external library calls):
the events loop runs first, so a missing `events` array raises before
`objects` is touched. -/
def readOcelFromJson (doc : RawOcelDoc) : Except ReadErr LegacyObj :=
  match doc.events with
  | none => .error .missingEvents
  | some evs =>
    match doc.objects with
    | none => .error .missingObjects
    | some objs =>
      .ok ⟨evs.map legacyEventOf, objs.map (fun o => (legacyObjectOf o).1),
        (objs.map (fun o => (legacyObjectOf o).2)).flatten⟩

/-- One remote write issued during the type-creation phases. -/
inductive RemoteCall : Type
  | createObjectType (name : Str)
  | createEventType (name : Str)
deriving DecidableEq

/-- Why a run ended with an error response. -/
inductive RunError : Type
  | typeCreationFailed
  | splitFailed (e : ReadErr)
deriving DecidableEq

/-- One conditional type-creation phase of the handler
(`if "objectTypes" in data: …` / `if "eventTypes" in data: …`). -/
def typePhase (rt : Bool) (o : Option (List (TypeItem × Resp))) : List CreateLog × Bool :=
  match o with
  | some l => createTypes rt l
  | none => ([], false)

/-- `handle_download_and_create_types` after a successful document download:
`create_object_types` when `objectTypes` is present, then
`create_event_types` when `eventTypes` is present, then
`create_transformations` → `splitter.split` → `read_ocel_from_json`.  Any
exception is caught at the handler and ends the run.  The first component is
the trace of remote create calls actually issued, in order; provisioning
after a successful read is beyond the scope of this model. -/
def handleDownloadAndCreateTypes (objectTypes eventTypes : Option (List (TypeItem × Resp)))
    (doc : RawOcelDoc) : List RemoteCall × Option RunError :=
  let objRun := typePhase false objectTypes
  let objCalls := objRun.1.map (fun e => RemoteCall.createObjectType e.name)
  if objRun.2 then (objCalls, some .typeCreationFailed)
  else
    let evtRun := typePhase true eventTypes
    let evtCalls := evtRun.1.map (fun e => RemoteCall.createEventType e.name)
    if evtRun.2 then (objCalls ++ evtCalls, some .typeCreationFailed)
    else
      match readOcelFromJson doc with
      | .error e => (objCalls ++ evtCalls, some (.splitFailed e))
      | .ok _ => (objCalls ++ evtCalls, none)

/-! ## Further helper lemmas and predicates -/

lemma mem_dedupFirstGo {α : Type} [DecidableEq α] (a : α) :
    ∀ (l seen : List α), a ∈ dedupFirstGo seen l ↔ a ∈ l ∧ a ∉ seen := by
  intro l
  induction l with
  | nil => intro seen; simp [dedupFirstGo]
  | cons b bs ih =>
    intro seen
    unfold dedupFirstGo
    by_cases hb : b ∈ seen
    · rw [if_pos hb, ih seen]
      constructor
      · rintro ⟨h1, h2⟩
        exact ⟨List.mem_cons_of_mem b h1, h2⟩
      · rintro ⟨h1, h2⟩
        rcases List.mem_cons.mp h1 with rfl | h3
        · exact absurd hb h2
        · exact ⟨h3, h2⟩
    · rw [if_neg hb]
      constructor
      · intro h
        rcases List.mem_cons.mp h with rfl | h2
        · exact ⟨List.mem_cons_self _ _, hb⟩
        · obtain ⟨h3, h4⟩ := (ih (b :: seen)).mp h2
          exact ⟨List.mem_cons_of_mem b h3,
            fun hs => h4 (List.mem_cons_of_mem b hs)⟩
      · rintro ⟨h1, h2⟩
        rcases List.mem_cons.mp h1 with rfl | h3
        · exact List.mem_cons_self _ _
        · by_cases hab : a = b
          · subst hab
            exact List.mem_cons_self _ _
          · refine List.mem_cons_of_mem _ ((ih (b :: seen)).mpr ⟨h3, ?_⟩)
            intro hs
            rcases List.mem_cons.mp hs with h4 | h4
            · exact hab h4
            · exact h2 h4

lemma mem_dedupFirst {α : Type} [DecidableEq α] (a : α) (l : List α) :
    a ∈ dedupFirst l ↔ a ∈ l := by
  unfold dedupFirst
  rw [mem_dedupFirstGo]
  simp

/-- A successful HTTP attempt (2xx response). -/
def isSuccessHttp : HttpOutcome → Prop
  | .resp s _ => isSuccessStatus s
  | .transportError => False

/-- A structured validation failure: status 400 with a JSON body whose
`statusCode` field is 400. -/
def isStructured400 : HttpOutcome → Prop
  | .resp s (some b) => s = 400 ∧ b.statusCode = some 400
  | .resp _ none => False
  | .transportError => False

/-- The message logged on the abandoned branch:
`error_body.get("message", "Unknown update error")`. -/
def abandonMsgOf : HttpOutcome → Str
  | .resp _ (some b) => b.message.getD unknownUpdateError
  | _ => []

instance (h : HttpOutcome) : Decidable (isSuccessHttp h) := by
  cases h with
  | resp s b => exact inferInstanceAs (Decidable (isSuccessStatus s))
  | transportError => exact inferInstanceAs (Decidable False)

instance (h : HttpOutcome) : Decidable (isStructured400 h) := by
  cases h with
  | transportError => exact inferInstanceAs (Decidable False)
  | resp s b =>
    cases b with
    | none => exact inferInstanceAs (Decidable False)
    | some ub => exact inferInstanceAs (Decidable (s = 400 ∧ ub.statusCode = some 400))

/-! ## Claim theorems -/

/-- Claim C1: `dataframe_to_sql_chunks` partitions the rows losslessly and
without duplication — the concatenation of the per-row `SELECT` statements
over all returned chunks, in order, is exactly the list of the input rows'
`SELECT` statements (each row exactly once); each returned chunk is the
`UNION ALL`-join of its group; and a dataset with zero rows yields the empty
chunk list (never a blank chunk). -/
theorem sql_chunks_partition_lossless (df : Dataframe) :
    (sqlChunkGroups df).flatten = df.rows.map (rowToSelect df.cols) ∧
    dataframeToSqlChunks df = (sqlChunkGroups df).map joinUnionAll ∧
    (∀ cols : List Str, dataframeToSqlChunks (Dataframe.mk cols []) = []) := by
  refine ⟨chunkGroups_flatten _ (chunkSizeFor_pos _) _, rfl, ?_⟩
  intro cols
  unfold dataframeToSqlChunks sqlChunkGroups selectLines
  rw [show (Dataframe.mk cols []).rows = [] from rfl, List.map_nil, chunkGroups_nil,
    List.map_nil]

/-- Claim C6: every chunk returned by `dataframe_to_sql_chunks` is the join
of a group with at most `chunkSizeFor` (column count) rows, and the limit is
1000 for ≤ 2 columns, 500 for 3, 250 for 4, 125 for 5, 60 for 6, 30 for 7
and 20 for ≥ 8 columns. -/
theorem chunk_row_limit (df : Dataframe) (c : Str) (hc : c ∈ dataframeToSqlChunks df) :
    ∃ g ∈ sqlChunkGroups df, c = joinUnionAll g ∧
      g.length ≤ chunkSizeFor df.cols.length ∧
      (df.cols.length ≤ 2 → g.length ≤ 1000) ∧
      (df.cols.length = 3 → g.length ≤ 500) ∧
      (df.cols.length = 4 → g.length ≤ 250) ∧
      (df.cols.length = 5 → g.length ≤ 125) ∧
      (df.cols.length = 6 → g.length ≤ 60) ∧
      (df.cols.length = 7 → g.length ≤ 30) ∧
      (8 ≤ df.cols.length → g.length ≤ 20) := by
  rcases List.mem_map.mp hc with ⟨g, hg, rfl⟩
  have hlen : g.length ≤ chunkSizeFor df.cols.length := chunkGroups_mem_length hg
  refine ⟨g, hg, rfl, hlen, ?_, ?_, ?_, ?_, ?_, ?_, ?_⟩ <;> intro h
  · have e : chunkSizeFor df.cols.length = 1000 := by
      unfold chunkSizeFor
      rw [if_pos h]
    omega
  · have e : chunkSizeFor df.cols.length = 500 := by
      unfold chunkSizeFor
      rw [if_neg (by omega), if_pos h]
    omega
  · have e : chunkSizeFor df.cols.length = 250 := by
      unfold chunkSizeFor
      rw [if_neg (by omega), if_neg (by omega), if_pos h]
    omega
  · have e : chunkSizeFor df.cols.length = 125 := by
      unfold chunkSizeFor
      rw [if_neg (by omega), if_neg (by omega), if_neg (by omega), if_pos h]
    omega
  · have e : chunkSizeFor df.cols.length = 60 := by
      unfold chunkSizeFor
      rw [if_neg (by omega), if_neg (by omega), if_neg (by omega), if_neg (by omega),
        if_pos h]
    omega
  · have e : chunkSizeFor df.cols.length = 30 := by
      unfold chunkSizeFor
      rw [if_neg (by omega), if_neg (by omega), if_neg (by omega), if_neg (by omega),
        if_neg (by omega), if_pos h]
    omega
  · have e : chunkSizeFor df.cols.length = 20 := by
      unfold chunkSizeFor
      rw [if_neg (by omega), if_neg (by omega), if_neg (by omega), if_neg (by omega),
        if_neg (by omega), if_neg (by omega)]
    omega

/-- Witness for C6 at a one-column, one-row dataset. -/
theorem chunk_row_limit_witness :
    ∃ g ∈ sqlChunkGroups (Dataframe.mk [[73, 68]] [[Value.null]]), g.length ≤ 1000 := by
  obtain ⟨g, hg, -, -, h2, -, -, -, -, -, -⟩ :=
    chunk_row_limit (Dataframe.mk [[73, 68]] [[Value.null]])
      (rowToSelect [[73, 68]] [Value.null]) (by decide)
  exact ⟨g, hg, h2 (by decide)⟩

/-- Claim C4 counterexample: the sanitizer is NOT idempotent.  At the input
`"a b"` (codes `[97, 32, 98]`) both `_sanitize_name` and `clean_name`
return `"AB"` (`[65, 66]`), but sanitizing that again gives `"Ab"`
(`[65, 98]`), because `str.capitalize` lowercases every character after the
first once the words have been merged. -/
theorem sanitize_idempotent_cex :
    sanitizeName (sanitizeName [97, 32, 98]) ≠ sanitizeName [97, 32, 98] ∧
    cleanName (cleanName [97, 32, 98]) ≠ cleanName [97, 32, 98] := by decide

/-- Claim C4 (amended): one application of the sanitizer is not a fixed
point in general, but two applications are — for every input `x`,
`sanitize(sanitize(sanitize(x))) = sanitize(sanitize(x))`, for both
`_sanitize_name` and `clean_name`. -/
theorem sanitize_double_application_stable (x : Str) :
    sanitizeName (sanitizeName (sanitizeName x)) = sanitizeName (sanitizeName x) ∧
    cleanName (cleanName (cleanName x)) = cleanName (cleanName x) :=
  ⟨sanitizeName_stable x, cleanName_stable x⟩

/-- Claim C10: round-trip of relationship identity through the formatted
key.  Names produced by the Flattener's sanitizer contain no underscore, so
parsing `"{E}_{O}_relations"` — stripping the `"_relations"` suffix and
splitting at the last underscore — recovers exactly the pair `(E, O)`. -/
theorem relationship_key_roundtrip (e o : Str) :
    95 ∉ cleanName e ∧ 95 ∉ cleanName o ∧
    parseRelationshipKey (relKey (cleanName e) (cleanName o)) =
      some (cleanName e, cleanName o) :=
  ⟨cleanName_no_underscore e, cleanName_no_underscore o,
    parse_relKey (cleanName_no_underscore o)⟩

/-- Claim C2: the Flattener's classification of an `(event type, object
type)` pair present in the relations is total and follows the
max-distinct-targets rule — `counts.eq(1).all()` holds exactly when every
event of the type that has links to the object type relates to exactly one
distinct object; in that case the pair is ONE_TO_ONE: no junction dataframe
is produced and the event dataframe gains an inline column named after the
cleaned object type whose cell is the linked object id, null where the event
has no link; otherwise the pair is ONE_TO_MANY and a junction dataframe with
one row per edge is appended instead, the event dataframes unchanged. -/
theorem relationship_classification_total (rels : List Rel) (st : TState) (et ot : Str)
    (df : EventDf) (hdf : lookupA st.eventDfs (cleanName et) = some df) :
    (classifyPair (pairSub rels et ot) = true ↔
      ∀ e ∈ (pairSub rels et ot).map Rel.eid,
        (dedupFirst (((pairSub rels et ot).filter
          (fun r => decide (r.eid = e))).map Rel.oid)).length = 1) ∧
    (classifyPair (pairSub rels et ot) = true →
      (processPair rels st (et, ot)).junctions = st.junctions ∧
      lookupA (processPair rels st (et, ot)).eventDfs (cleanName et) =
        some (addInlineColumn df (cleanName ot) (pairSub rels et ot)) ∧
      (addInlineColumn df (cleanName ot) (pairSub rels et ot)).cols =
        df.cols ++ [cleanName ot] ∧
      (addInlineColumn df (cleanName ot) (pairSub rels et ot)).rows =
        df.rows.map (fun row =>
          EvtRow.mk row.id (row.cells ++ [lookupOid (pairSub rels et ot) row.id])) ∧
      (∀ eid, (pairSub rels et ot).find? (fun r => decide (r.eid = eid)) = none →
        lookupOid (pairSub rels et ot) eid = Value.null)) ∧
    (classifyPair (pairSub rels et ot) = false →
      (processPair rels st (et, ot)).eventDfs = st.eventDfs ∧
      (processPair rels st (et, ot)).junctions =
        st.junctions ++ [((cleanName et, cleanName ot),
          mkJunctionDf (cleanName ot) (pairSub rels et ot))] ∧
      (mkJunctionDf (cleanName ot) (pairSub rels et ot)).rows.length =
        (pairSub rels et ot).length) := by
  refine ⟨?_, ?_, ?_⟩
  · unfold classifyPair
    rw [List.all_eq_true]
    constructor
    · intro h e he
      have he2 : e ∈ dedupFirst ((pairSub rels et ot).map Rel.eid) :=
        (mem_dedupFirst _ _).mpr he
      have h3 := h e he2
      simpa using h3
    · intro h e he
      have he2 : e ∈ (pairSub rels et ot).map Rel.eid := (mem_dedupFirst _ _).mp he
      simpa using h e he2
  · intro h
    refine ⟨by simp [processPair, h], ?_, rfl, rfl, ?_⟩
    · have : (processPair rels st (et, ot)).eventDfs =
          updateAssoc st.eventDfs (cleanName et)
            (fun d => addInlineColumn d (cleanName ot) (pairSub rels et ot)) := by
        simp [processPair, h]
      rw [this, lookupA_updateAssoc, hdf]
      rfl
    · intro eid hnone
      unfold lookupOid
      rw [hnone]
  · intro h
    refine ⟨by simp [processPair, h], by simp [processPair, h], by simp [mkJunctionDf]⟩

/-- Witness for C2 at one link `(event "e", type "S") → (object "o",
type "C")`: the pair is ONE_TO_ONE and no junction is produced. -/
theorem relationship_classification_total_witness :
    classifyPair (pairSub [Rel.mk [101] [83] [111] [67]] [83] [67]) = true ∧
    (processPair [Rel.mk [101] [83] [111] [67]]
        (TState.mk [([83], EventDf.mk [[73, 68]] [EvtRow.mk [101] []])] [])
        ([83], [67])).junctions = [] := by
  have h := relationship_classification_total [Rel.mk [101] [83] [111] [67]]
    (TState.mk [([83], EventDf.mk [[73, 68]] [EvtRow.mk [101] []])] [])
    [83] [67] (EventDf.mk [[73, 68]] [EvtRow.mk [101] []]) (by decide)
  exact ⟨by decide, (h.2.1 (by decide)).1⟩

/-- Claim C5 counterexample: a ONE_TO_MANY junction dataframe's columns are
`[{ObjectType}, ID]`, not `[ID, {ObjectType}]` — the code selects
`rel_df[["ocel:oid", "ocel:eid"]]`, putting the object-id column first.  At
two links of event `"e"` (type `"L"`) to two distinct objects of type
`"C"`, the junction's column list is `[[67], [73, 68]]` (`["C", "ID"]`). -/
theorem junction_columns_order_cex :
    ((processPair [Rel.mk [101] [76] [111] [67], Rel.mk [101] [76] [112] [67]]
        (TState.mk [] []) ([76], [67])).junctions.map (fun j => j.2.cols)) =
      [[[67], [73, 68]]] ∧
    ([[67], [73, 68]] : List Str) ≠ [[73, 68], [67]] := by decide

/-- Claim C5 (amended): every ONE_TO_MANY junction dataframe is appended
under the cleaned name pair, has exactly the two columns
`[{ObjectType}, ID]` in that order — the object-id column named after the
object type first, then the event-id column named `ID` — with one row
`[object id, event id]` per edge, and `split` publishes its SQL chunks under
the key `"{EventType}_{ObjectType}_relations"`. -/
theorem junction_dataset_shape (rels : List Rel) (st : TState) (et ot : Str)
    (h : classifyPair (pairSub rels et ot) = false) :
    (processPair rels st (et, ot)).junctions =
      st.junctions ++ [((cleanName et, cleanName ot),
        mkJunctionDf (cleanName ot) (pairSub rels et ot))] ∧
    (mkJunctionDf (cleanName ot) (pairSub rels et ot)).cols = [cleanName ot, S "ID"] ∧
    (mkJunctionDf (cleanName ot) (pairSub rels et ot)).rows =
      (pairSub rels et ot).map (fun r => [Value.str r.oid, Value.str r.eid]) ∧
    relationshipsSqlOf (processPair rels st (et, ot)).junctions =
      relationshipsSqlOf st.junctions ++
        [(relKey (cleanName et) (cleanName ot),
          dataframeToSqlChunks (mkJunctionDf (cleanName ot) (pairSub rels et ot)))] := by
  refine ⟨by simp [processPair, h], rfl, rfl, ?_⟩
  have hj : (processPair rels st (et, ot)).junctions =
      st.junctions ++ [((cleanName et, cleanName ot),
        mkJunctionDf (cleanName ot) (pairSub rels et ot))] := by
    simp [processPair, h]
  rw [hj]
  unfold relationshipsSqlOf
  rw [List.map_append]
  rfl

/-- Witness for C5 at two links of event `"1"` (type `"M"`) to two distinct
objects of type `"D"`. -/
theorem junction_dataset_shape_witness :
    (mkJunctionDf (cleanName [68])
        (pairSub [Rel.mk [49] [77] [50] [68], Rel.mk [49] [77] [51] [68]] [77] [68])).cols =
      [[68], [73, 68]] :=
  ((junction_dataset_shape [Rel.mk [49] [77] [50] [68], Rel.mk [49] [77] [51] [68]]
      (TState.mk [] []) [77] [68] (by decide)).2.1).trans (by decide)

/-- Claim C3 counterexample: a non-2xx, non-already-exists response is NOT
fatal "for that type only" — the `raise e` aborts the sequential loop, so
the remaining sibling types never have their create requests issued.  With
items `A` (response 500) and `B` (response 200), only `A`'s request is
issued and the call re-raises. -/
theorem create_types_sibling_abort_cex :
    (createTypes false [(TypeItem.mk [65] [], Resp.mk 500 none),
        (TypeItem.mk [66] [], Resp.mk 200 none)]).1.map CreateLog.name = [[65]] ∧
    ([66] : Str) ∉ (createTypes false [(TypeItem.mk [65] [], Resp.mk 500 none),
        (TypeItem.mk [66] [], Resp.mk 200 none)]).1.map CreateLog.name ∧
    (createTypes false [(TypeItem.mk [65] [], Resp.mk 500 none),
        (TypeItem.mk [66] [], Resp.mk 200 none)]).2 = true := by decide

/-- Claim C3 (amended): in `_create_types`, a response whose status is 400
with body error code `ALREADY_EXISTS` is logged as a warning and treated as
success for that type (the loop continues); any other non-2xx response
re-raises and aborts the call, so the remaining sibling types in the same
call do NOT have their create requests issued. -/
theorem create_types_error_semantics (rt : Bool) (pre : List (TypeItem × Resp))
    (it : TypeItem) (r : Resp) (post : List (TypeItem × Resp))
    (hpre : ∀ x ∈ pre, outcomeOf x.2 ≠ .fatal) :
    (¬ isSuccessStatus r.status → r.status = 400 →
      r.errorCode = some alreadyExistsStr → outcomeOf r = .alreadyExists) ∧
    (outcomeOf r ≠ .fatal →
      createTypes rt (pre ++ (it, r) :: post) =
        (pre.map (entryOf rt) ++ entryOf rt (it, r) :: (createTypes rt post).1,
          (createTypes rt post).2)) ∧
    (outcomeOf r = .fatal →
      createTypes rt (pre ++ (it, r) :: post) =
        (pre.map (entryOf rt) ++
          [CreateLog.mk (sanitizeName it.name) (buildFields it rt) .fatal], true)) := by
  refine ⟨?_, ?_, ?_⟩
  · intro h1 h2 h3
    unfold outcomeOf
    rw [if_neg h1, if_pos ⟨h2, h3⟩]
  · intro h
    rw [createTypes_append_nonFatal rt pre ((it, r) :: post) hpre, createTypes_cons,
      if_neg h]
  · intro h
    rw [createTypes_append_nonFatal rt pre ((it, r) :: post) hpre, createTypes_cons,
      if_pos h]
    simp [entryOf, h]

/-- Witness for C3: an already-exists item, then a fatal item, then a
sibling; the run stops at the fatal item. -/
theorem create_types_error_semantics_witness :
    createTypes false ([(TypeItem.mk [65] [], Resp.mk 400 (some alreadyExistsStr))] ++
        (TypeItem.mk [66] [], Resp.mk 503 none) :: [(TypeItem.mk [67] [], Resp.mk 200 none)]) =
      ([(TypeItem.mk [65] [], Resp.mk 400 (some alreadyExistsStr))].map (entryOf false) ++
        [CreateLog.mk (sanitizeName (TypeItem.mk [66] []).name)
          (buildFields (TypeItem.mk [66] []) false) .fatal], true) :=
  (create_types_error_semantics false
      [(TypeItem.mk [65] [], Resp.mk 400 (some alreadyExistsStr))]
      (TypeItem.mk [66] []) (Resp.mk 503 none)
      [(TypeItem.mk [67] [], Resp.mk 200 none)] (by decide)).2.2 (by decide)

/-- Claim C7: in chunk-factory provisioning, a chunk whose factory create
succeeded and whose update came back as HTTP 400 with a structured JSON body
(`statusCode` 400) is logged and abandoned — the task returns without error;
any other HTTP or transport failure makes the chunk's task fail; and the
fan-out over `pre ++ c :: post` produces one independent result per chunk,
so sibling chunks all complete regardless of `c`'s outcome and the failures
are collected at the fan-in. -/
theorem chunk_failure_isolation (pre post : List ChunkHttp) (c : ChunkHttp) :
    processChunks (pre ++ c :: post) =
      processChunks pre ++ processSingleSqlChunk c :: processChunks post ∧
    (isSuccessHttp c.createResp → isStructured400 c.updateResp →
      processSingleSqlChunk c = .abandoned (abandonMsgOf c.updateResp)) ∧
    (isSuccessHttp c.createResp → ¬ isStructured400 c.updateResp →
      ¬ isSuccessHttp c.updateResp → processSingleSqlChunk c = .failed) ∧
    (¬ isSuccessHttp c.createResp → processSingleSqlChunk c = .failed) := by
  obtain ⟨cr, ur⟩ := c
  refine ⟨by simp [processChunks], ?_, ?_, ?_⟩
  · intro h1 h2
    cases cr with
    | transportError => exact absurd h1 (fun h => h)
    | resp cs cb =>
      have h1a : isSuccessStatus cs := h1
      cases ur with
      | transportError => exact absurd h2 (fun h => h)
      | resp us ub =>
        cases ub with
        | none => exact absurd h2 (fun h => h)
        | some b =>
          obtain ⟨h400, hsc⟩ := h2
          subst h400
          simp only [processSingleSqlChunk]
          rw [if_pos h1a, if_neg (by decide : ¬ isSuccessStatus 400)]
          simp [hsc, abandonMsgOf]
  · intro h1 h2 h3
    cases cr with
    | transportError => exact absurd h1 (fun h => h)
    | resp cs cb =>
      have h1a : isSuccessStatus cs := h1
      cases ur with
      | transportError =>
        simp only [processSingleSqlChunk]
        rw [if_pos h1a]
      | resp us ub =>
        have h3a : ¬ isSuccessStatus us := h3
        simp only [processSingleSqlChunk]
        rw [if_pos h1a, if_neg h3a]
        by_cases hus : us = 400
        · subst hus
          cases ub with
          | none => simp
          | some b =>
            have h2a : ¬ ((400 : Nat) = 400 ∧ b.statusCode = some 400) := h2
            have hsc : ¬ b.statusCode = some 400 := fun hb => h2a ⟨rfl, hb⟩
            simp [hsc]
        · rw [if_neg hus]
  · intro h1
    cases cr with
    | transportError => rfl
    | resp cs cb =>
      have h1a : ¬ isSuccessStatus cs := h1
      simp only [processSingleSqlChunk]
      rw [if_neg h1a]

/-- Witness for C7: an abandoned structured-400 chunk, a failed
transport-error chunk, and a failed create-error chunk. -/
theorem chunk_failure_isolation_witness :
    processSingleSqlChunk (ChunkHttp.mk (HttpOutcome.resp 200 none)
        (HttpOutcome.resp 400 (some (UpdateBody.mk (some 400) none)))) =
      ChunkResult.abandoned unknownUpdateError ∧
    processSingleSqlChunk (ChunkHttp.mk (HttpOutcome.resp 200 none)
        HttpOutcome.transportError) = ChunkResult.failed ∧
    processSingleSqlChunk (ChunkHttp.mk (HttpOutcome.resp 500 none)
        HttpOutcome.transportError) = ChunkResult.failed := by
  refine ⟨?_, ?_, ?_⟩
  · exact (chunk_failure_isolation [] [] _).2.1 (by decide) (by decide)
  · exact (chunk_failure_isolation [] [] _).2.2.1 (by decide) (by decide) (by decide)
  · exact (chunk_failure_isolation [] [] _).2.2.2 (by decide)

/-- Claim C8 counterexample: a document missing the top-level `events` array
does NOT abort before any remote call — with an `objectTypes` list present,
the handler issues its type-creation call first and only then fails when the
splitter's loader hits the missing key (a `KeyError`, there is no dedicated
`InputError` in the code). -/
theorem input_error_before_remote_cex :
    handleDownloadAndCreateTypes
        (some [(TypeItem.mk [65] [], Resp.mk 200 none)]) none
        (RawOcelDoc.mk none (some [])) =
      ([RemoteCall.createObjectType [65]],
        some (RunError.splitFailed ReadErr.missingEvents)) ∧
    ([RemoteCall.createObjectType [65]] : List RemoteCall) ≠ [] := by decide

/-- Claim C8 (amended): if the document lacks the top-level `events` or
`objects` array, the loader raises a missing-key error and, provided the
type-creation phases did not themselves raise, the run fails with that
error — but only after every type-creation remote call for the provided
`objectTypes`/`eventTypes` has been issued; the failure aborts the
transformation/relationship provisioning, not the earlier remote calls. -/
theorem input_missing_arrays_failure (objectTypes eventTypes : Option (List (TypeItem × Resp)))
    (doc : RawOcelDoc)
    (hobj : (typePhase false objectTypes).2 = false)
    (hevt : (typePhase true eventTypes).2 = false)
    (hmiss : doc.events = none ∨ doc.objects = none) :
    ∃ e : ReadErr, readOcelFromJson doc = .error e ∧
      handleDownloadAndCreateTypes objectTypes eventTypes doc =
        ((typePhase false objectTypes).1.map (fun x => RemoteCall.createObjectType x.name) ++
          (typePhase true eventTypes).1.map (fun x => RemoteCall.createEventType x.name),
          some (RunError.splitFailed e)) := by
  obtain ⟨ev, ob⟩ := doc
  have hread : ∃ e : ReadErr, readOcelFromJson (RawOcelDoc.mk ev ob) = .error e := by
    rcases hmiss with h | h
    · rw [show (RawOcelDoc.mk ev ob).events = ev from rfl] at h
      subst h
      exact ⟨.missingEvents, rfl⟩
    · rw [show (RawOcelDoc.mk ev ob).objects = ob from rfl] at h
      subst h
      cases ev with
      | none => exact ⟨.missingEvents, rfl⟩
      | some l => exact ⟨.missingObjects, rfl⟩
  obtain ⟨e, he⟩ := hread
  refine ⟨e, he, ?_⟩
  simp only [handleDownloadAndCreateTypes, hobj, hevt, he]
  simp

/-- Witness for C8: an empty `events` list but a missing `objects` array,
with one event-type creation issued first. -/
theorem input_missing_arrays_failure_witness :
    ∃ e : ReadErr, readOcelFromJson (RawOcelDoc.mk (some []) none) = .error e ∧
      handleDownloadAndCreateTypes none (some [(TypeItem.mk [88] [], Resp.mk 201 none)])
          (RawOcelDoc.mk (some []) none) =
        ((typePhase false none).1.map (fun x => RemoteCall.createObjectType x.name) ++
          (typePhase true (some [(TypeItem.mk [88] [], Resp.mk 201 none)])).1.map
            (fun x => RemoteCall.createEventType x.name),
          some (RunError.splitFailed e)) :=
  input_missing_arrays_failure none (some [(TypeItem.mk [88] [], Resp.mk 201 none)])
    (RawOcelDoc.mk (some []) none) (by decide) (by decide) (Or.inr rfl)

end Ocel
